import Mathlib

/-!
Verification of the drmimage program (src/main.rs): a shallow embedding of
the device-discovery, mode-setting and pixel-copy logic, with theorems about
the claims of the specification.

The embedding has two parts:
* a model of the pixel-copy loop of `display` (the dumb-buffer write step),
  given as a write-trace semantics: `copyWrites` is the exact sequence of
  byte stores the loop performs, `copyPixels` folds them into the buffer;
* a trace-producing model of the whole `display` pipeline, with an
  environment of oracles standing for the kernel (DRM) collaborator, used
  for the scan/ordering/error-handling claims.
-/

/-- One RGBA pixel sample: four 8-bit channels, as produced by the image
decoding collaborator (`image::Rgba([r, g, b, a])`). -/
structure Rgba where
  r : Nat
  g : Nat
  b : Nat
  a : Nat
deriving DecidableEq

/-- A decoded image: a rectangular grid of RGBA samples with known width and
height (`picture.dimensions()`), pixel lookup by column and row. -/
structure Image where
  width : Nat
  height : Nat
  pix : Nat → Nat → Rgba

/-- The row-major pixel enumeration order of `picture.enumerate_pixels()`:
all columns of row 0, then row 1, and so on; each element is `(x, y)`. -/
def pixelSeq (w h : Nat) : List (Nat × Nat) :=
  (List.range h).flatMap (fun y => (List.range w).map (fun x => (x, y)))

/-- The four byte stores the loop body performs for one pixel at byte offset
`idx`, in program order:
`mapping[index + 3] = a; [index + 2] = r; [index + 1] = g; [index + 0] = b`. -/
def pixWrites (p : Rgba) (idx : Nat) : List (Nat × Nat) :=
  [(idx + 3, p.a), (idx + 2, p.r), (idx + 1, p.g), (idx, p.b)]

/-- The exact sequence of `(byte offset, byte value)` stores performed by the
pixel-copy loop of `display`, over a given pixel enumeration: a pixel with
`x >= bw` (buffer width) is skipped (`continue`), a pixel with `y >= bh`
(buffer height) ends the whole loop (`break`); otherwise the four bytes of
the pixel are stored at offset `x*4 + y*pitch`. -/
def copyWrites (img : Image) (bw bh pitch : Nat) : List (Nat × Nat) → List (Nat × Nat)
  | [] => []
  | (x, y) :: rest =>
    if bw ≤ x then copyWrites img bw bh pitch rest
    else if bh ≤ y then []
    else pixWrites (img.pix x y) (x * 4 + y * pitch) ++ copyWrites img bw bh pitch rest

/-- Apply a sequence of byte stores to a buffer, in order (a store at an
offset outside the buffer leaves it unchanged). -/
def applyWrites (buf : List Nat) (ws : List (Nat × Nat)) : List Nat :=
  ws.foldl (fun b iv => b.set iv.1 iv.2) buf

/-- The full pixel-copy step of `display`: the mapped dumb buffer `buf`
after the loop over all pixels of `img` has run, with buffer dimensions
`(bw, bh)` and row stride `pitch` bytes. -/
def copyPixels (img : Image) (bw bh pitch : Nat) (buf : List Nat) : List Nat :=
  applyWrites buf (copyWrites img bw bh pitch (pixelSeq img.width img.height))

/-- The writes of one whole row `y` of the image when the row survives the
height check: every column `x < bw` contributes its four stores, columns
`x ≥ bw` contribute nothing. -/
def rowWrites (img : Image) (bw pitch w y : Nat) : List (Nat × Nat) :=
  (List.range w).flatMap (fun x =>
    if x < bw then pixWrites (img.pix x y) (x * 4 + y * pitch) else [])

/-- A W×H opaque red image: every pixel is `(r, g, b, a) = (255, 0, 0, 255)`. -/
def redImage (W H : Nat) : Image :=
  ⟨W, H, fun _ _ => ⟨255, 0, 0, 255⟩⟩

/- ### Trace model of the display pipeline -/

/-- Result of trying to open one /dev/dri/cardN device node (read-write):
success, a NotFound error, or any other error kind. -/
inductive OpenResult where
  | ok
  | notFound
  | otherErr
deriving DecidableEq

/-- Connector connection state (drm `connector::State`). -/
inductive ConnState where
  | Connected
  | Disconnected
  | Unknown
deriving DecidableEq

/-- Connector info as fetched by `get_connector`: connection state and the
currently active encoder reference, if any. -/
structure ConnectorInfo where
  handle : Nat
  state : ConnState
  currentEncoder : Option Nat
deriving DecidableEq

/-- Encoder info: the CRTC currently driving it, if any. -/
structure EncoderInfo where
  crtc : Option Nat
deriving DecidableEq

/-- Plane info: current CRTC assignment (None = free), possible-CRTCs
bitmask, and the list of supported pixel format codes. -/
structure PlaneInfo where
  handle : Nat
  crtc : Option Nat
  possibleCrtcs : Nat
  formats : List Nat
deriving DecidableEq

/-- The resource-handles catalog: connector and CRTC handle lists. -/
structure Resources where
  connectors : List Nat
  crtcs : List Nat
deriving DecidableEq

/-- DRM_FORMAT_ARGB8888, fourcc 'AR24' (`DrmFourcc::Argb8888 as u32`). -/
def ARGB8888 : Nat := 0x34325241

/-- `ResourceHandles::filter_crtcs` of the drm crate: keep the CRTC handles
of the catalog whose position bit is set in the possible-CRTCs bitmask. -/
def filter_crtcs (crtcs : List Nat) (mask : Nat) : List Nat :=
  (crtcs.enum.filter (fun q => mask.testBit q.1)).map Prod.snd

/-- External calls made by `display`, in program order. -/
inductive Ev where
  | acquireMaster
  | getResources
  | getConnector (h : Nat) (forceProbe : Bool)
  | getEncoder (h : Nat)
  | getCrtc (h : Nat)
  | getPlaneHandles
  | getPlane (h : Nat)
  | decode
  | createDumbBuffer (w h : Nat)
  | mapDumbBuffer
  | addFramebuffer (depth bpp : Nat)
  | setPlane (plane crtc : Nat) (fb : Option Nat) (flags : Nat)
      (dst : Nat × Nat × Nat × Nat) (src : Nat × Nat × Nat × Nat)
  | releaseMaster
  | park
deriving DecidableEq

/-- How a run of `display` ends: reaching the idle park loop, a fatal error
with its message, or an unwrap panic. -/
inductive Outcome where
  | ok
  | err (msg : String)
  | panic
deriving DecidableEq

/-- Oracles for the kernel and image-decoding collaborators: one `Env`
fixes the outcome of every external call `display` can make. -/
structure Env where
  openResult : Nat → OpenResult
  acquireOk : Bool
  resources : Option Resources
  connectorInfo : Nat → Option ConnectorInfo
  encoderInfo : Nat → Option EncoderInfo
  crtcOk : Nat → Bool
  planeHandles : Option (List Nat)
  planeInfo : Nat → Option PlaneInfo
  decodeOk : Bool
  image : Image
  createBufferOk : Bool
  mapOk : Bool
  addFbResult : Option Nat
  setPlaneOk : Bool
  releaseOk : Bool

/-- The scan of `Card::find_device` over a list of identifiers: return the
first that opens, and the identifiers that produced a diagnostic (every
non-NotFound open failure seen before the success). -/
def find_device_scan (openResult : Nat → OpenResult) : List Nat → Option Nat × List Nat
  | [] => (none, [])
  | i :: rest =>
    match openResult i with
    | OpenResult.ok => (some i, [])
    | OpenResult.notFound => find_device_scan openResult rest
    | OpenResult.otherErr =>
      let r := find_device_scan openResult rest
      (r.1, i :: r.2)

/-- `Card::find_device`: scan /dev/dri/card0 .. /dev/dri/card255 (device
identifiers 0 through 255 inclusive), each opened read-write. -/
def find_device (openResult : Nat → OpenResult) : Option Nat × List Nat :=
  find_device_scan openResult (List.range 256)

/-- The connected-output scan of `display`: for each connector handle in
catalog order, fetch its info with force_probe = false; a fetch failure or a
non-Connected state is skipped; the first Connected connector is returned
and ends the scan. Also returns the fetch events made, in order. -/
def findConnector (info : Nat → Option ConnectorInfo) :
    List Nat → Option ConnectorInfo × List Ev
  | [] => (none, [])
  | h :: rest =>
    match info h with
    | some ci =>
      if ci.state = ConnState.Connected then (some ci, [Ev.getConnector h false])
      else
        let r := findConnector info rest
        (r.1, Ev.getConnector h false :: r.2)
    | none =>
      let r := findConnector info rest
      (r.1, Ev.getConnector h false :: r.2)

/-- `Card::get_crtc_plane`: scan the plane handles in order; a plane-info
fetch failure propagates as an error; the first plane with no current CRTC
assignment whose possible-CRTCs bitmask, filtered against the resource
catalog, contains the target CRTC is returned; if the scan exhausts the
list it fails with "Failed to find a suitable plane for crtc". -/
def get_crtc_plane (planeInfo : Nat → Option PlaneInfo) (res : Resources)
    (crtc : Nat) : List Nat → Except String PlaneInfo × List Ev
  | [] => (Except.error "Failed to find a suitable plane for crtc", [])
  | h :: rest =>
    match planeInfo h with
    | none => (Except.error "Failed to get plane info", [Ev.getPlane h])
    | some p =>
      if p.crtc = none ∧ crtc ∈ filter_crtcs res.crtcs p.possibleCrtcs then
        (Except.ok p, [Ev.getPlane h])
      else
        let r := get_crtc_plane planeInfo res crtc rest
        (r.1, Ev.getPlane h :: r.2)

/-- Final stage of `display`: `set_plane(plane, crtc, Some(fb), 0,
(0,0,w,h), (0,0,w<<16,h<<16))` with `(w, h) = buffer.size()` (the decoded
image's dimensions, with the u32 shift wrapping modulo 2^32), then the
master-lock release, then the idle park loop. -/
def displayCommit (env : Env) (p : PlaneInfo) (crtcH fb : Nat) : Outcome × List Ev :=
  let w := env.image.width
  let h := env.image.height
  let ev := Ev.setPlane p.handle crtcH (some fb) 0 (0, 0, w, h)
    (0, 0, w * 65536 % 4294967296, h * 65536 % 4294967296)
  if env.setPlaneOk then
    if env.releaseOk then (Outcome.ok, [ev, Ev.releaseMaster, Ev.park])
    else (Outcome.err "Failed to release master lock", [ev, Ev.releaseMaster])
  else (Outcome.err "Failed to set plane", [ev])

/-- `add_framebuffer(&buffer, 32, 32)` (depth 32, 32 bits per pixel). -/
def displayFb (env : Env) (p : PlaneInfo) (crtcH : Nat) : Outcome × List Ev :=
  match env.addFbResult with
  | none => (Outcome.err "Failed to add framebuffer", [Ev.addFramebuffer 32 32])
  | some fb =>
    let r := displayCommit env p crtcH fb
    (r.1, Ev.addFramebuffer 32 32 :: r.2)

/-- `map_dumb_buffer` and the scoped pixel-copy write (whose buffer effect
is `copyPixels`). -/
def displayMap (env : Env) (p : PlaneInfo) (crtcH : Nat) : Outcome × List Ev :=
  if env.mapOk then
    let r := displayFb env p crtcH
    (r.1, Ev.mapDumbBuffer :: r.2)
  else (Outcome.err "Failed to map dumb buffer", [Ev.mapDumbBuffer])

/-- `create_dumb_buffer(picture.dimensions(), DrmFourcc::Argb8888, 32)`:
the dumb buffer is allocated with exactly the decoded image's dimensions. -/
def displayBuffer (env : Env) (p : PlaneInfo) (crtcH : Nat) : Outcome × List Ev :=
  if env.createBufferOk then
    let r := displayMap env p crtcH
    (r.1, Ev.createDumbBuffer env.image.width env.image.height :: r.2)
  else (Outcome.err "Failed to create dumb buffer",
    [Ev.createDumbBuffer env.image.width env.image.height])

/-- `image::open(path).unwrap().into_rgba8()`: decode failure panics. -/
def displayDecode (env : Env) (p : PlaneInfo) (crtcH : Nat) : Outcome × List Ev :=
  if env.decodeOk then
    let r := displayBuffer env p crtcH
    (r.1, Ev.decode :: r.2)
  else (Outcome.panic, [Ev.decode])

/-- The format check: the selected plane must list ARGB8888 among its
supported formats, else the run aborts before any allocation. -/
def displayFormat (env : Env) (p : PlaneInfo) (crtcH : Nat) : Outcome × List Ev :=
  if ARGB8888 ∈ p.formats then displayDecode env p crtcH
  else (Outcome.err "Failed to find suitable format in plane.", [])

/-- `plane_handles()` then `get_crtc_plane`. -/
def displayPlane (env : Env) (res : Resources) (crtcH : Nat) : Outcome × List Ev :=
  match env.planeHandles with
  | none => (Outcome.err "Failed to get plane handles", [Ev.getPlaneHandles])
  | some phs =>
    match get_crtc_plane env.planeInfo res crtcH phs with
    | (Except.error msg, evs) => (Outcome.err msg, Ev.getPlaneHandles :: evs)
    | (Except.ok p, evs) =>
      let r := displayFormat env p crtcH
      (r.1, Ev.getPlaneHandles :: (evs ++ r.2))

/-- `encoder.crtc().unwrap()` (panic when absent) then `get_crtc`. -/
def displayCrtc (env : Env) (res : Resources) (enc : EncoderInfo) : Outcome × List Ev :=
  match enc.crtc with
  | none => (Outcome.panic, [])
  | some crtcH =>
    if env.crtcOk crtcH then
      let r := displayPlane env res crtcH
      (r.1, Ev.getCrtc crtcH :: r.2)
    else (Outcome.err "Failed to get crtc info", [Ev.getCrtc crtcH])

/-- `connector.current_encoder().unwrap()` (panic when absent) then
`get_encoder`. -/
def displayEnc (env : Env) (res : Resources) (conn : ConnectorInfo) : Outcome × List Ev :=
  match conn.currentEncoder with
  | none => (Outcome.panic, [])
  | some encH =>
    match env.encoderInfo encH with
    | none => (Outcome.err "Failed to get encoder info", [Ev.getEncoder encH])
    | some enc =>
      let r := displayCrtc env res enc
      (r.1, Ev.getEncoder encH :: r.2)

/-- The connected-output scan, failing fatally when no connector matches. -/
def displayConn (env : Env) (res : Resources) : Outcome × List Ev :=
  match findConnector env.connectorInfo res.connectors with
  | (none, evs) => (Outcome.err "Failed to find any connected output", evs)
  | (some conn, evs) =>
    let r := displayEnc env res conn
    (r.1, evs ++ r.2)

/-- `resource_handles()`. -/
def displayRes (env : Env) : Outcome × List Ev :=
  match env.resources with
  | none => (Outcome.err "Failed to get resource handles", [Ev.getResources])
  | some res =>
    let r := displayConn env res
    (r.1, Ev.getResources :: r.2)

/-- The display pipeline (`fn display` of main.rs): the run's outcome plus
the ordered trace of external calls from the master-lock acquire on. -/
def display (env : Env) : Outcome × List Ev :=
  match (find_device env.openResult).1 with
  | none => (Outcome.err "Failed to open any card, terminating", [])
  | some _ =>
    if env.acquireOk then
      let r := displayRes env
      (r.1, Ev.acquireMaster :: r.2)
    else (Outcome.err "Failed to acquire master lock", [Ev.acquireMaster])

/-- True exactly on the open failures that produce a diagnostic. -/
def isOtherErr : OpenResult → Bool
  | OpenResult.otherErr => true
  | _ => false

/-- A concrete environment on which the whole pipeline succeeds: card 3
opens, connector 8 is Connected through encoder 9 to CRTC 5, plane 11 is
taken but plane 12 is free, supports ARGB8888 and reaches CRTC 5, every
device call succeeds, and the image is 2×2. -/
def sampleEnv : Env where
  openResult := fun i => if i = 3 then OpenResult.ok else OpenResult.notFound
  acquireOk := true
  resources := some ⟨[7, 8], [5]⟩
  connectorInfo := fun h =>
    if h = 8 then some ⟨8, ConnState.Connected, some 9⟩ else none
  encoderInfo := fun h => if h = 9 then some ⟨some 5⟩ else none
  crtcOk := fun _ => true
  planeHandles := some [11, 12]
  planeInfo := fun h =>
    if h = 11 then some ⟨11, some 5, 1, [ARGB8888]⟩
    else if h = 12 then some ⟨12, none, 1, [0, ARGB8888]⟩ else none
  decodeOk := true
  image := ⟨2, 2, fun x y => ⟨x, y, x + y, 255⟩⟩
  createBufferOk := true
  mapOk := true
  addFbResult := some 21
  setPlaneOk := true
  releaseOk := true

/-- Like `sampleEnv`, but the only candidate plane does not support
ARGB8888: the run must abort at the format check. -/
def noFmtEnv : Env where
  openResult := fun i => if i = 3 then OpenResult.ok else OpenResult.notFound
  acquireOk := true
  resources := some ⟨[7, 8], [5]⟩
  connectorInfo := fun h =>
    if h = 8 then some ⟨8, ConnState.Connected, some 9⟩ else none
  encoderInfo := fun h => if h = 9 then some ⟨some 5⟩ else none
  crtcOk := fun _ => true
  planeHandles := some [12]
  planeInfo := fun h => if h = 12 then some ⟨12, none, 1, [0]⟩ else none
  decodeOk := true
  image := ⟨2, 2, fun x y => ⟨x, y, x + y, 255⟩⟩
  createBufferOk := true
  mapOk := true
  addFbResult := some 21
  setPlaneOk := true
  releaseOk := true

/- ### Basic lemmas about applyWrites -/

theorem applyWrites_nil (buf : List Nat) : applyWrites buf [] = buf := rfl

theorem applyWrites_cons (buf : List Nat) (iv : Nat × Nat) (ws : List (Nat × Nat)) :
    applyWrites buf (iv :: ws) = applyWrites (buf.set iv.1 iv.2) ws := rfl

theorem applyWrites_append (buf : List Nat) (ws₁ ws₂ : List (Nat × Nat)) :
    applyWrites buf (ws₁ ++ ws₂) = applyWrites (applyWrites buf ws₁) ws₂ :=
  List.foldl_append _ _ _ _

theorem applyWrites_length (buf : List Nat) (ws : List (Nat × Nat)) :
    (applyWrites buf ws).length = buf.length := by
  induction ws generalizing buf with
  | nil => rfl
  | cons iv ws ih => rw [applyWrites_cons, ih, List.length_set]

theorem applyWrites_getElem?_of_not_written (buf : List Nat) (ws : List (Nat × Nat))
    (i : Nat) (h : ∀ iv ∈ ws, iv.1 ≠ i) :
    (applyWrites buf ws)[i]? = buf[i]? := by
  induction ws generalizing buf with
  | nil => rfl
  | cons iv ws ih =>
    rw [applyWrites_cons, ih _ (fun jv hjv => h jv (List.mem_cons_of_mem _ hjv)),
      List.getElem?_set]
    simp [h iv (List.mem_cons_self _ _)]

/-- After the four stores of one pixel, the four bytes starting at `idx`
read back, in order, blue, green, red, alpha. -/
theorem applyWrites_pixWrites (buf : List Nat) (p : Rgba) (idx : Nat)
    (h : idx + 3 < buf.length) :
    (applyWrites buf (pixWrites p idx))[idx]? = some p.b ∧
    (applyWrites buf (pixWrites p idx))[idx + 1]? = some p.g ∧
    (applyWrites buf (pixWrites p idx))[idx + 2]? = some p.r ∧
    (applyWrites buf (pixWrites p idx))[idx + 3]? = some p.a := by
  refine ⟨?_, ?_, ?_, ?_⟩ <;>
  · simp only [pixWrites, applyWrites, List.foldl_cons, List.foldl_nil,
      List.getElem?_set, List.length_set]
    split_ifs <;> first | rfl | omega

/- ### Structure of copyWrites over the row-major enumeration -/

theorem copyWrites_append_of_nobreak (img : Image) (bw bh pitch : Nat)
    (s₁ s₂ : List (Nat × Nat)) (h : ∀ p ∈ s₁, p.2 < bh) :
    copyWrites img bw bh pitch (s₁ ++ s₂) =
      copyWrites img bw bh pitch s₁ ++ copyWrites img bw bh pitch s₂ := by
  induction s₁ with
  | nil => rfl
  | cons p s₁ ih =>
    obtain ⟨x, y⟩ := p
    have hy : y < bh := h (x, y) (List.mem_cons_self _ _)
    have ih' := ih (fun q hq => h q (List.mem_cons_of_mem _ hq))
    by_cases hx : bw ≤ x
    · simp [copyWrites, hx, ih']
    · simp [copyWrites, hx, Nat.not_le.mpr hy, ih']

theorem copyWrites_all_high (img : Image) (bw bh pitch : Nat)
    (s : List (Nat × Nat)) (h : ∀ p ∈ s, bh ≤ p.2) :
    copyWrites img bw bh pitch s = [] := by
  induction s with
  | nil => rfl
  | cons p s ih =>
    obtain ⟨x, y⟩ := p
    have hy : bh ≤ y := h (x, y) (List.mem_cons_self _ _)
    by_cases hx : bw ≤ x
    · simp [copyWrites, hx, ih (fun q hq => h q (List.mem_cons_of_mem _ hq))]
    · simp [copyWrites, hx, hy]

theorem copyWrites_row (img : Image) (bw bh pitch y : Nat) (hy : y < bh)
    (w : Nat) :
    copyWrites img bw bh pitch ((List.range w).map (fun x => (x, y))) =
      rowWrites img bw pitch w y := by
  suffices H : ∀ xs : List Nat,
      copyWrites img bw bh pitch (xs.map (fun x => (x, y))) =
        xs.flatMap (fun x =>
          if x < bw then pixWrites (img.pix x y) (x * 4 + y * pitch) else []) by
    exact H (List.range w)
  intro xs
  induction xs with
  | nil => rfl
  | cons x xs ih =>
    by_cases hx : x < bw
    · simp [copyWrites, Nat.not_le.mpr hx, Nat.not_le.mpr hy, hx, ih]
    · simp [copyWrites, Nat.le_of_not_lt hx, hx, ih]

/-- The pixel-copy write trace, over the whole row-major enumeration, is the
concatenation of the row write lists of the rows that pass the height check:
rows `min h bh ≤ y` contribute nothing. -/
theorem copyWrites_low_rows (img : Image) (bw bh pitch w : Nat) :
    ∀ n, n ≤ bh →
      copyWrites img bw bh pitch
          ((List.range n).flatMap (fun y => (List.range w).map (fun x => (x, y)))) =
        (List.range n).flatMap (rowWrites img bw pitch w) := by
  intro n
  induction n with
  | zero => intro _; rfl
  | succ n ih =>
    intro hn
    rw [List.range_succ, List.flatMap_append, List.flatMap_append]
    rw [copyWrites_append_of_nobreak]
    · rw [ih (by omega)]
      congr 1
      simp only [List.flatMap_cons, List.flatMap_nil, List.append_nil]
      exact copyWrites_row img bw bh pitch n (by omega) w
    · intro p hp
      simp only [List.mem_flatMap, List.mem_range, List.mem_map] at hp
      obtain ⟨y, hy, x, _, rfl⟩ := hp
      omega

/-- The pixel-copy write trace, over the whole row-major enumeration, is the
concatenation of the row write lists of the rows that pass the height check:
rows `min h bh ≤ y` contribute nothing. -/
theorem copyWrites_pixelSeq (img : Image) (bw bh pitch w h : Nat) :
    copyWrites img bw bh pitch (pixelSeq w h) =
      (List.range (min h bh)).flatMap (rowWrites img bw pitch w) := by
  have hlow := copyWrites_low_rows img bw bh pitch w (min h bh) (Nat.min_le_right h bh)
  have hhigh : copyWrites img bw bh pitch
      (((List.range (h - min h bh)).map (fun k => min h bh + k)).flatMap
        (fun y => (List.range w).map (fun x => (x, y)))) = [] := by
    apply copyWrites_all_high
    intro p hp
    simp only [List.mem_flatMap, List.mem_map, List.mem_range] at hp
    obtain ⟨y, ⟨k, hk, rfl⟩, x, _, rfl⟩ := hp
    omega
  have hsplit : List.range h =
      List.range (min h bh) ++ (List.range (h - min h bh)).map (fun k => min h bh + k) := by
    conv_lhs => rw [show h = min h bh + (h - min h bh) by omega]
    exact List.range_add _ _
  rw [pixelSeq, hsplit, List.flatMap_append, copyWrites_append_of_nobreak, hlow, hhigh,
    List.append_nil]
  intro p hp
  simp only [List.mem_flatMap, List.mem_range, List.mem_map] at hp
  obtain ⟨y, hy, x, _, rfl⟩ := hp
  omega

/- ### Membership and index bounds for the write trace -/

theorem mem_pixWrites {iv : Nat × Nat} {p : Rgba} {idx : Nat} :
    iv ∈ pixWrites p idx ↔
      iv = (idx + 3, p.a) ∨ iv = (idx + 2, p.r) ∨ iv = (idx + 1, p.g) ∨ iv = (idx, p.b) := by
  simp [pixWrites]

theorem pixWrites_fst {iv : Nat × Nat} {p : Rgba} {idx : Nat} (h : iv ∈ pixWrites p idx) :
    ∃ c, c < 4 ∧ iv.1 = idx + c := by
  rcases mem_pixWrites.mp h with h | h | h | h <;> subst h
  · exact ⟨3, by omega, rfl⟩
  · exact ⟨2, by omega, rfl⟩
  · exact ⟨1, by omega, rfl⟩
  · exact ⟨0, by omega, rfl⟩

theorem mem_rowWrites {iv : Nat × Nat} {img : Image} {bw pitch w y : Nat} :
    iv ∈ rowWrites img bw pitch w y ↔
      ∃ x, x < w ∧ x < bw ∧ iv ∈ pixWrites (img.pix x y) (x * 4 + y * pitch) := by
  simp only [rowWrites, List.mem_flatMap, List.mem_range]
  constructor
  · rintro ⟨x, hx, hiv⟩
    by_cases hxb : x < bw
    · rw [if_pos hxb] at hiv; exact ⟨x, hx, hxb, hiv⟩
    · rw [if_neg hxb] at hiv; cases hiv
  · rintro ⟨x, hx, hxb, hiv⟩
    exact ⟨x, hx, by rw [if_pos hxb]; exact hiv⟩

/-- Every store of the pixel-copy loop targets a byte offset of the form
`x*4 + y*pitch + c` with `c < 4` and `(x, y)` an image pixel that passed
both bounds checks. -/
theorem mem_copyWrites {img : Image} {bw bh pitch : Nat} {iv : Nat × Nat}
    (h : iv ∈ copyWrites img bw bh pitch (pixelSeq img.width img.height)) :
    ∃ x y c, x < img.width ∧ x < bw ∧ y < img.height ∧ y < bh ∧ c < 4 ∧
      iv.1 = x * 4 + y * pitch + c := by
  rw [copyWrites_pixelSeq] at h
  simp only [List.mem_flatMap, List.mem_range] at h
  obtain ⟨y, hy, hrow⟩ := h
  obtain ⟨x, hxw, hxb, hpix⟩ := mem_rowWrites.mp hrow
  obtain ⟨c, hc, hfst⟩ := pixWrites_fst hpix
  exact ⟨x, y, c, hxw, hxb, by omega, by omega, hc, hfst⟩

/-- Any in-range store offset is below `bh * pitch`, hence below any mapped
length of at least `bh * pitch` bytes. -/
theorem writeIndex_lt (x y c bw bh pitch len : Nat) (hx : x < bw) (hy : y < bh)
    (hc : c < 4) (hp : 4 * bw ≤ pitch) (hl : bh * pitch ≤ len) :
    x * 4 + y * pitch + c < len := by
  have h2 : (y + 1) * pitch ≤ bh * pitch := mul_le_mul_right' (by omega) pitch
  have h3 : (y + 1) * pitch = y * pitch + pitch := by ring
  omega

/-- Bytes at offsets at or past `bh * pitch` (in particular, every row at or
past the buffer height) are never touched by the pixel-copy loop. -/
theorem copyPixels_untouched (img : Image) (bw bh pitch : Nat) (buf : List Nat)
    (hp : 4 * bw ≤ pitch) (i : Nat) (hi : bh * pitch ≤ i) :
    (copyPixels img bw bh pitch buf)[i]? = buf[i]? := by
  apply applyWrites_getElem?_of_not_written
  intro iv hiv
  obtain ⟨x, y, c, _, hxb, _, hyb, hc, hfst⟩ := mem_copyWrites hiv
  have := writeIndex_lt x y c bw bh pitch (bh * pitch) hxb hyb hc hp (Nat.le_refl _)
  omega

/- ### The value written for each in-range pixel -/

theorem range_split_at (n k : Nat) (h : k < n) :
    List.range n =
      (List.range k ++ [k]) ++ (List.range (n - (k + 1))).map (fun j => k + 1 + j) := by
  conv_lhs => rw [show n = (k + 1) + (n - (k + 1)) by omega]
  rw [List.range_add, List.range_succ]

/-- For every image pixel `(x, y)` that passes both bounds checks, the final
buffer holds the pixel's blue, green, red, alpha bytes at offsets
`x*4 + y*pitch` through `x*4 + y*pitch + 3`. -/
theorem copyPixels_pixel_bytes (img : Image) (bw bh pitch : Nat) (buf : List Nat)
    (x y : Nat) (hp : 4 * bw ≤ pitch) (hl : bh * pitch ≤ buf.length)
    (hxw : x < img.width) (hyh : y < img.height) (hxb : x < bw) (hyb : y < bh) :
    (copyPixels img bw bh pitch buf)[x * 4 + y * pitch]? = some (img.pix x y).b ∧
    (copyPixels img bw bh pitch buf)[x * 4 + y * pitch + 1]? = some (img.pix x y).g ∧
    (copyPixels img bw bh pitch buf)[x * 4 + y * pitch + 2]? = some (img.pix x y).r ∧
    (copyPixels img bw bh pitch buf)[x * 4 + y * pitch + 3]? = some (img.pix x y).a := by
  have main : ∃ Wpre Wpost,
      copyPixels img bw bh pitch buf =
        applyWrites (applyWrites (applyWrites buf Wpre)
          (pixWrites (img.pix x y) (x * 4 + y * pitch))) Wpost ∧
      ∀ iv ∈ Wpost, ∀ c, c < 4 → iv.1 ≠ x * 4 + y * pitch + c := by
    have hym : y < min img.height bh := by omega
    have hrows := copyWrites_pixelSeq img bw bh pitch img.width img.height
    rw [range_split_at (min img.height bh) y hym] at hrows
    simp only [List.flatMap_append, List.flatMap_cons, List.flatMap_nil,
      List.append_nil] at hrows
    have hrow : rowWrites img bw pitch img.width y =
        ((List.range x).flatMap (fun q =>
            if q < bw then pixWrites (img.pix q y) (q * 4 + y * pitch) else []) ++
          pixWrites (img.pix x y) (x * 4 + y * pitch)) ++
        ((List.range (img.width - (x + 1))).map (fun j => x + 1 + j)).flatMap (fun q =>
            if q < bw then pixWrites (img.pix q y) (q * 4 + y * pitch) else []) := by
      rw [rowWrites, range_split_at img.width x hxw]
      simp only [List.flatMap_append, List.flatMap_cons, List.flatMap_nil,
        List.append_nil, if_pos hxb]
    refine ⟨(List.range y).flatMap (rowWrites img bw pitch img.width) ++
        (List.range x).flatMap (fun q =>
          if q < bw then pixWrites (img.pix q y) (q * 4 + y * pitch) else []),
      ((List.range (img.width - (x + 1))).map (fun j => x + 1 + j)).flatMap (fun q =>
          if q < bw then pixWrites (img.pix q y) (q * 4 + y * pitch) else []) ++
        ((List.range (min img.height bh - (y + 1))).map (fun j => y + 1 + j)).flatMap
          (rowWrites img bw pitch img.width), ?_, ?_⟩
    · simp only [copyPixels, hrows, hrow, applyWrites_append]
    · intro iv hiv c hc
      rcases List.mem_append.mp hiv with hd | hb
      · simp only [List.mem_flatMap, List.mem_map, List.mem_range] at hd
        obtain ⟨q, ⟨j, hj, rfl⟩, hpix⟩ := hd
        by_cases hqb : x + 1 + j < bw
        · rw [if_pos hqb] at hpix
          obtain ⟨c', hc', hfst⟩ := pixWrites_fst hpix
          omega
        · rw [if_neg hqb] at hpix
          cases hpix
      · simp only [List.mem_flatMap, List.mem_map, List.mem_range] at hb
        obtain ⟨q, ⟨j, hj, rfl⟩, hrm⟩ := hb
        obtain ⟨x'', hx''w, hx''b, hpix⟩ := mem_rowWrites.mp hrm
        obtain ⟨c'', hc'', hfst⟩ := pixWrites_fst hpix
        have hmul : (y + 1) * pitch ≤ (y + 1 + j) * pitch :=
          mul_le_mul_right' (by omega) pitch
        have hring : (y + 1) * pitch = y * pitch + pitch := by ring
        omega
  obtain ⟨Wpre, Wpost, heq, hpost⟩ := main
  have hlen2 : (applyWrites buf Wpre).length = buf.length := applyWrites_length _ _
  have hblk := applyWrites_pixWrites (applyWrites buf Wpre) (img.pix x y)
    (x * 4 + y * pitch)
    (by rw [hlen2]; exact writeIndex_lt x y 3 bw bh pitch _ hxb hyb (by omega) hp hl)
  refine ⟨?_, ?_, ?_, ?_⟩
  · rw [heq, applyWrites_getElem?_of_not_written _ Wpost _
      (fun iv hiv => by have := hpost iv hiv 0 (by omega); omega)]
    exact hblk.1
  · rw [heq, applyWrites_getElem?_of_not_written _ Wpost _
      (fun iv hiv => by have := hpost iv hiv 1 (by omega); omega)]
    exact hblk.2.1
  · rw [heq, applyWrites_getElem?_of_not_written _ Wpost _
      (fun iv hiv => by have := hpost iv hiv 2 (by omega); omega)]
    exact hblk.2.2.1
  · rw [heq, applyWrites_getElem?_of_not_written _ Wpost _
      (fun iv hiv => by have := hpost iv hiv 3 (by omega); omega)]
    exact hblk.2.2.2

/-- C1: for every decoded-image pixel at column x, row y with channel values
(r, g, b, a) that passes the bounds checks, the pixel-copy step writes
exactly the four bytes [b, g, r, a] at byte offsets x*4 + y*pitch + 0..3 of
the mapped buffer; and for a W×H opaque red image (255,0,0,255) with pitch
P ≥ 4W, the bytes at offset y*P for every row y < H are [0,0,255,255], and
no byte at offset ≥ H*P is written. -/
theorem C1_pixel_copy_writes_bgra :
    (∀ (img : Image) (bw bh pitch : Nat) (buf : List Nat) (x y : Nat),
        4 * bw ≤ pitch → bh * pitch ≤ buf.length →
        x < img.width → y < img.height → x < bw → y < bh →
        ((copyPixels img bw bh pitch buf)[x * 4 + y * pitch]? = some (img.pix x y).b ∧
         (copyPixels img bw bh pitch buf)[x * 4 + y * pitch + 1]? = some (img.pix x y).g ∧
         (copyPixels img bw bh pitch buf)[x * 4 + y * pitch + 2]? = some (img.pix x y).r ∧
         (copyPixels img bw bh pitch buf)[x * 4 + y * pitch + 3]? = some (img.pix x y).a)) ∧
    (∀ (W H P : Nat) (buf : List Nat), 0 < W → 4 * W ≤ P → H * P ≤ buf.length →
        (∀ y, y < H →
          ((copyPixels (redImage W H) W H P buf)[y * P]? = some 0 ∧
           (copyPixels (redImage W H) W H P buf)[y * P + 1]? = some 0 ∧
           (copyPixels (redImage W H) W H P buf)[y * P + 2]? = some 255 ∧
           (copyPixels (redImage W H) W H P buf)[y * P + 3]? = some 255)) ∧
        (∀ i, H * P ≤ i → (copyPixels (redImage W H) W H P buf)[i]? = buf[i]?)) := by
  constructor
  · intro img bw bh pitch buf x y hp hl hxw hyh hxb hyb
    exact copyPixels_pixel_bytes img bw bh pitch buf x y hp hl hxw hyh hxb hyb
  · intro W H P buf hW hp hl
    constructor
    · intro y hy
      have h := copyPixels_pixel_bytes (redImage W H) W H P buf 0 y hp hl hW hy hW hy
      simpa [redImage] using h
    · intro i hi
      exact copyPixels_untouched (redImage W H) W H P buf hp i hi

theorem C1_pixel_copy_writes_bgra_witness :
    4 * 1 ≤ 4 ∧ 1 * 4 ≤ (List.replicate 4 9).length ∧
    (copyPixels ⟨1, 1, fun _ _ => ⟨10, 20, 30, 40⟩⟩ 1 1 4 (List.replicate 4 9))[0]? =
      some 30 :=
  ⟨by decide, by decide,
    (C1_pixel_copy_writes_bgra.1 ⟨1, 1, fun _ _ => ⟨10, 20, 30, 40⟩⟩ 1 1 4
      (List.replicate 4 9) 0 0 (by decide) (by decide) (by decide) (by decide)
      (by decide) (by decide)).1⟩

/-- C2: the pixel-copy loop never indexes outside the mapped buffer's byte
length: every store targets an offset `x*4 + y*pitch + c`, `c < 4`, for a
pixel with `x` inside the buffer width and `y` inside the buffer height
(so a pixel with x at or beyond the buffer width contributes no write), and
every byte at or past offset `bh * pitch` — in particular every row at or
past the buffer height — is left unwritten. -/
theorem C2_pixel_copy_in_bounds (img : Image) (bw bh pitch len : Nat) (buf : List Nat)
    (hp : 4 * bw ≤ pitch) (hl : bh * pitch ≤ len) :
    (∀ iv ∈ copyWrites img bw bh pitch (pixelSeq img.width img.height),
        iv.1 < len ∧
        ∃ x y c, x < img.width ∧ x < bw ∧ y < img.height ∧ y < bh ∧ c < 4 ∧
          iv.1 = x * 4 + y * pitch + c) ∧
    (∀ i, bh * pitch ≤ i → (copyPixels img bw bh pitch buf)[i]? = buf[i]?) := by
  constructor
  · intro iv hiv
    obtain ⟨x, y, c, hxw, hxb, hyh, hyb, hc, hfst⟩ := mem_copyWrites hiv
    refine ⟨?_, x, y, c, hxw, hxb, hyh, hyb, hc, hfst⟩
    rw [hfst]
    exact writeIndex_lt x y c bw bh pitch len hxb hyb hc hp hl
  · intro i hi
    exact copyPixels_untouched img bw bh pitch buf hp i hi

theorem C2_pixel_copy_in_bounds_witness :
    4 * 1 ≤ 4 ∧ 1 * 4 ≤ 4 ∧
    (∀ i, 1 * 4 ≤ i →
      (copyPixels ⟨2, 2, fun _ _ => ⟨1, 2, 3, 4⟩⟩ 1 1 4 [7, 7, 7, 7])[i]? =
        [7, 7, 7, 7][i]?) :=
  ⟨by decide, by decide,
    (C2_pixel_copy_in_bounds ⟨2, 2, fun _ _ => ⟨1, 2, 3, 4⟩⟩ 1 1 4 4 [7, 7, 7, 7]
      (by decide) (by decide)).2⟩

/- ### Lemmas about the scans -/

theorem find_device_scan_none (f : Nat → OpenResult) (l : List Nat)
    (h : ∀ i ∈ l, f i ≠ OpenResult.ok) :
    find_device_scan f l = (none, l.filter (fun i => isOtherErr (f i))) := by
  induction l with
  | nil => rfl
  | cons i rest ih =>
    have hi := h i (List.mem_cons_self _ _)
    have ih' := ih (fun j hj => h j (List.mem_cons_of_mem _ hj))
    cases hfi : f i with
    | ok => exact absurd hfi hi
    | notFound => simp [find_device_scan, hfi, ih', List.filter_cons, isOtherErr]
    | otherErr => simp [find_device_scan, hfi, ih', List.filter_cons, isOtherErr]

theorem find_device_scan_found (f : Nat → OpenResult) (l₁ l₂ : List Nat) (i : Nat)
    (h1 : ∀ j ∈ l₁, f j ≠ OpenResult.ok) (h2 : f i = OpenResult.ok) :
    find_device_scan f (l₁ ++ i :: l₂) =
      (some i, l₁.filter (fun j => isOtherErr (f j))) := by
  induction l₁ with
  | nil => simp [find_device_scan, h2]
  | cons j rest ih =>
    have hj := h1 j (List.mem_cons_self _ _)
    have ih' := ih (fun q hq => h1 q (List.mem_cons_of_mem _ hq))
    cases hfj : f j with
    | ok => exact absurd hfj hj
    | notFound => simp [find_device_scan, hfj, ih', List.filter_cons, isOtherErr]
    | otherErr => simp [find_device_scan, hfj, ih', List.filter_cons, isOtherErr]

theorem findConnector_some (info : Nat → Option ConnectorInfo) :
    ∀ (hs : List Nat) (ci : ConnectorInfo),
      (findConnector info hs).1 = some ci →
      ∃ pre h post, hs = pre ++ h :: post ∧
        info h = some ci ∧ ci.state = ConnState.Connected ∧
        (∀ h' ∈ pre, ∀ ci', info h' = some ci' → ci'.state ≠ ConnState.Connected) ∧
        (findConnector info hs).2 = (pre ++ [h]).map (fun g => Ev.getConnector g false) := by
  intro hs
  induction hs with
  | nil => intro ci hci; simp [findConnector] at hci
  | cons g rest ih =>
    intro ci hci
    cases hinfo : info g with
    | some ci' =>
      by_cases hconn : ci'.state = ConnState.Connected
      · have heq : findConnector info (g :: rest) =
            (some ci', [Ev.getConnector g false]) := by
          simp [findConnector, hinfo, hconn]
        rw [heq] at hci
        obtain rfl : ci' = ci := by simpa using hci
        exact ⟨[], g, rest, rfl, hinfo, hconn, by simp, by rw [heq]; simp⟩
      · have heq : findConnector info (g :: rest) =
            ((findConnector info rest).1,
              Ev.getConnector g false :: (findConnector info rest).2) := by
          simp [findConnector, hinfo, hconn]
        rw [heq] at hci
        obtain ⟨pre, h, post, hhs, hinfoh, hconn2, hpre, htr⟩ := ih ci hci
        refine ⟨g :: pre, h, post, by rw [hhs]; rfl, hinfoh, hconn2, ?_, ?_⟩
        · intro h' hh' ci'' hci''
          rcases List.mem_cons.mp hh' with rfl | hh'
          · rw [hinfo] at hci''
            obtain rfl : ci' = ci'' := by simpa using hci''
            exact hconn
          · exact hpre h' hh' ci'' hci''
        · rw [heq, htr]
          simp
    | none =>
      have heq : findConnector info (g :: rest) =
          ((findConnector info rest).1,
            Ev.getConnector g false :: (findConnector info rest).2) := by
        simp [findConnector, hinfo]
      rw [heq] at hci
      obtain ⟨pre, h, post, hhs, hinfoh, hconn2, hpre, htr⟩ := ih ci hci
      refine ⟨g :: pre, h, post, by rw [hhs]; rfl, hinfoh, hconn2, ?_, ?_⟩
      · intro h' hh' ci'' hci''
        rcases List.mem_cons.mp hh' with rfl | hh'
        · rw [hinfo] at hci''; cases hci''
        · exact hpre h' hh' ci'' hci''
      · rw [heq, htr]
        simp

theorem findConnector_none (info : Nat → Option ConnectorInfo) :
    ∀ hs : List Nat,
      (∀ g ∈ hs, ∀ ci, info g = some ci → ci.state ≠ ConnState.Connected) →
      (findConnector info hs).1 = none ∧
      (findConnector info hs).2 = hs.map (fun g => Ev.getConnector g false) := by
  intro hs
  induction hs with
  | nil => intro _; exact ⟨rfl, rfl⟩
  | cons g rest ih =>
    intro hnc
    obtain ⟨h1, h2⟩ := ih (fun q hq => hnc q (List.mem_cons_of_mem _ hq))
    cases hinfo : info g with
    | some ci' =>
      have hconn : ci'.state ≠ ConnState.Connected :=
        hnc g (List.mem_cons_self _ _) ci' hinfo
      constructor <;> simp [findConnector, hinfo, hconn, h1, h2]
    | none =>
      constructor <;> simp [findConnector, hinfo, h1, h2]

theorem findConnector_events (info : Nat → Option ConnectorInfo) :
    ∀ (hs : List Nat) (e : Ev), e ∈ (findConnector info hs).2 →
      ∃ g, e = Ev.getConnector g false := by
  intro hs
  induction hs with
  | nil => intro e he; simp [findConnector] at he
  | cons g rest ih =>
    intro e he
    cases hinfo : info g with
    | some ci' =>
      by_cases hconn : ci'.state = ConnState.Connected
      · rw [show (findConnector info (g :: rest)).2 = [Ev.getConnector g false] by
          simp [findConnector, hinfo, hconn]] at he
        exact ⟨g, by simpa using he⟩
      · rw [show (findConnector info (g :: rest)).2 =
            Ev.getConnector g false :: (findConnector info rest).2 by
          simp [findConnector, hinfo, hconn]] at he
        rcases List.mem_cons.mp he with rfl | he
        · exact ⟨g, rfl⟩
        · exact ih e he
    | none =>
      rw [show (findConnector info (g :: rest)).2 =
          Ev.getConnector g false :: (findConnector info rest).2 by
        simp [findConnector, hinfo]] at he
      rcases List.mem_cons.mp he with rfl | he
      · exact ⟨g, rfl⟩
      · exact ih e he

theorem get_crtc_plane_ok (pi : Nat → Option PlaneInfo) (res : Resources) (crtc : Nat) :
    ∀ (hs : List Nat) (p : PlaneInfo),
      (get_crtc_plane pi res crtc hs).1 = Except.ok p →
      ∃ pre h post, hs = pre ++ h :: post ∧
        pi h = some p ∧ p.crtc = none ∧
        crtc ∈ filter_crtcs res.crtcs p.possibleCrtcs ∧
        (∀ h' ∈ pre, ∃ p', pi h' = some p' ∧
          ¬(p'.crtc = none ∧ crtc ∈ filter_crtcs res.crtcs p'.possibleCrtcs)) := by
  intro hs
  induction hs with
  | nil => intro p hp; simp [get_crtc_plane] at hp
  | cons g rest ih =>
    intro p hp
    cases hinfo : pi g with
    | none =>
      rw [show (get_crtc_plane pi res crtc (g :: rest)).1 =
          Except.error "Failed to get plane info" by simp [get_crtc_plane, hinfo]] at hp
      cases hp
    | some p' =>
      by_cases hcond : p'.crtc = none ∧ crtc ∈ filter_crtcs res.crtcs p'.possibleCrtcs
      · rw [show (get_crtc_plane pi res crtc (g :: rest)).1 = Except.ok p' by
          simp [get_crtc_plane, hinfo, hcond]] at hp
        obtain rfl : p' = p := by simpa using hp
        exact ⟨[], g, rest, rfl, hinfo, hcond.1, hcond.2, by simp⟩
      · rw [show (get_crtc_plane pi res crtc (g :: rest)).1 =
            (get_crtc_plane pi res crtc rest).1 by simp [get_crtc_plane, hinfo, hcond]] at hp
        obtain ⟨pre, h, post, hhs, hinfoh, hfree, hmem, hpre⟩ := ih p hp
        refine ⟨g :: pre, h, post, by rw [hhs]; rfl, hinfoh, hfree, hmem, ?_⟩
        intro h' hh'
        rcases List.mem_cons.mp hh' with rfl | hh'
        · exact ⟨p', hinfo, hcond⟩
        · exact hpre h' hh'

theorem get_crtc_plane_exhausted (pi : Nat → Option PlaneInfo) (res : Resources)
    (crtc : Nat) :
    ∀ hs : List Nat,
      (∀ h ∈ hs, ∃ p, pi h = some p ∧
        ¬(p.crtc = none ∧ crtc ∈ filter_crtcs res.crtcs p.possibleCrtcs)) →
      (get_crtc_plane pi res crtc hs).1 =
        Except.error "Failed to find a suitable plane for crtc" := by
  intro hs
  induction hs with
  | nil => intro _; rfl
  | cons g rest ih =>
    intro hall
    obtain ⟨p, hinfo, hcond⟩ := hall g (List.mem_cons_self _ _)
    have ih' := ih (fun q hq => hall q (List.mem_cons_of_mem _ hq))
    simp [get_crtc_plane, hinfo, hcond, ih']

theorem get_crtc_plane_events (pi : Nat → Option PlaneInfo) (res : Resources)
    (crtc : Nat) :
    ∀ (hs : List Nat) (e : Ev), e ∈ (get_crtc_plane pi res crtc hs).2 →
      ∃ g, e = Ev.getPlane g := by
  intro hs
  induction hs with
  | nil => intro e he; simp [get_crtc_plane] at he
  | cons g rest ih =>
    intro e he
    cases hinfo : pi g with
    | none =>
      rw [show (get_crtc_plane pi res crtc (g :: rest)).2 = [Ev.getPlane g] by
        simp [get_crtc_plane, hinfo]] at he
      exact ⟨g, by simpa using he⟩
    | some p' =>
      by_cases hcond : p'.crtc = none ∧ crtc ∈ filter_crtcs res.crtcs p'.possibleCrtcs
      · rw [show (get_crtc_plane pi res crtc (g :: rest)).2 = [Ev.getPlane g] by
          simp [get_crtc_plane, hinfo, hcond]] at he
        exact ⟨g, by simpa using he⟩
      · rw [show (get_crtc_plane pi res crtc (g :: rest)).2 =
            Ev.getPlane g :: (get_crtc_plane pi res crtc rest).2 by
          simp [get_crtc_plane, hinfo, hcond]] at he
        rcases List.mem_cons.mp he with rfl | he
        · exact ⟨g, rfl⟩
        · exact ih e he

/-- C3: the plane resolver returns the first plane, in enumeration order,
whose current CRTC assignment is empty and whose possible-CRTCs bitmask,
filtered against the resource catalog into concrete CRTC handles, contains
the target CRTC; if no plane satisfies both conditions the scan fails with
the error "Failed to find a suitable plane for crtc". -/
theorem C3_crtc_plane_resolver (planeInfo : Nat → Option PlaneInfo) (res : Resources)
    (crtc : Nat) (hs : List Nat) :
    (∀ p, (get_crtc_plane planeInfo res crtc hs).1 = Except.ok p →
      ∃ pre h post, hs = pre ++ h :: post ∧
        planeInfo h = some p ∧ p.crtc = none ∧
        crtc ∈ filter_crtcs res.crtcs p.possibleCrtcs ∧
        (∀ h' ∈ pre, ∃ p', planeInfo h' = some p' ∧
          ¬(p'.crtc = none ∧ crtc ∈ filter_crtcs res.crtcs p'.possibleCrtcs))) ∧
    ((∀ h ∈ hs, ∃ p, planeInfo h = some p ∧
        ¬(p.crtc = none ∧ crtc ∈ filter_crtcs res.crtcs p.possibleCrtcs)) →
      (get_crtc_plane planeInfo res crtc hs).1 =
        Except.error "Failed to find a suitable plane for crtc") :=
  ⟨fun p hp => get_crtc_plane_ok planeInfo res crtc hs p hp,
   fun hall => get_crtc_plane_exhausted planeInfo res crtc hs hall⟩

theorem C3_crtc_plane_resolver_witness :
    (get_crtc_plane
        (fun h => if h = 11 then some ⟨11, some 5, 1, []⟩
                  else if h = 12 then some ⟨12, none, 1, []⟩ else none)
        ⟨[], [5]⟩ 5 [11, 12]).1 = Except.ok ⟨12, none, 1, []⟩ ∧
    ∃ pre h post, ([11, 12] : List Nat) = pre ++ h :: post ∧
      (fun h => if h = 11 then some (⟨11, some 5, 1, []⟩ : PlaneInfo)
                else if h = 12 then some ⟨12, none, 1, []⟩ else none) h =
        some ⟨12, none, 1, []⟩ ∧
      (⟨12, none, 1, []⟩ : PlaneInfo).crtc = none ∧
      5 ∈ filter_crtcs [5] (⟨12, none, 1, []⟩ : PlaneInfo).possibleCrtcs ∧
      (∀ h' ∈ pre, ∃ p', (fun h => if h = 11 then some (⟨11, some 5, 1, []⟩ : PlaneInfo)
                  else if h = 12 then some ⟨12, none, 1, []⟩ else none) h' = some p' ∧
        ¬(p'.crtc = none ∧ 5 ∈ filter_crtcs [5] p'.possibleCrtcs)) :=
  ⟨by rfl,
    (C3_crtc_plane_resolver
        (fun h => if h = 11 then some ⟨11, some 5, 1, []⟩
                  else if h = 12 then some ⟨12, none, 1, []⟩ else none)
        ⟨[], [5]⟩ 5 [11, 12]).1 ⟨12, none, 1, []⟩ (by rfl)⟩

/-- C5: the output resolver iterates connectors in catalog order, fetching
each connector's info with force_probe = false (no re-probe), and returns
the first connector whose state is Connected, ending the scan there; if no
connector is Connected, display fails fatally with
"Failed to find any connected output". -/
theorem C5_connected_output_scan (info : Nat → Option ConnectorInfo) (hs : List Nat) :
    (∀ ci, (findConnector info hs).1 = some ci →
      ∃ pre h post, hs = pre ++ h :: post ∧
        info h = some ci ∧ ci.state = ConnState.Connected ∧
        (∀ h' ∈ pre, ∀ ci', info h' = some ci' → ci'.state ≠ ConnState.Connected) ∧
        (findConnector info hs).2 =
          (pre ++ [h]).map (fun g => Ev.getConnector g false)) ∧
    ((∀ g ∈ hs, ∀ ci, info g = some ci → ci.state ≠ ConnState.Connected) →
      (findConnector info hs).1 = none ∧
      (findConnector info hs).2 = hs.map (fun g => Ev.getConnector g false) ∧
      (∀ (env : Env) (res : Resources) (d : Nat),
        (find_device env.openResult).1 = some d → env.acquireOk = true →
        env.resources = some res → env.connectorInfo = info →
        res.connectors = hs →
        (display env).1 = Outcome.err "Failed to find any connected output")) := by
  refine ⟨fun ci hci => findConnector_some info hs ci hci, fun hnc => ?_⟩
  obtain ⟨h1, h2⟩ := findConnector_none info hs hnc
  refine ⟨h1, h2, ?_⟩
  intro env res d hdev hacq hres hinfo hconns
  have hfc : findConnector env.connectorInfo res.connectors =
      (none, hs.map (fun g => Ev.getConnector g false)) := by
    rw [hinfo, hconns]
    exact Prod.ext h1 h2
  simp [display, hdev, hacq, displayRes, hres, displayConn, hfc]

theorem C5_connected_output_scan_witness :
    (findConnector (fun _ => some ⟨0, ConnState.Disconnected, none⟩) [4, 6]).1 = none ∧
    (findConnector (fun _ => some ⟨0, ConnState.Disconnected, none⟩) [4, 6]).2 =
      [Ev.getConnector 4 false, Ev.getConnector 6 false] :=
  ⟨((C5_connected_output_scan (fun _ => some ⟨0, ConnState.Disconnected, none⟩)
      [4, 6]).2 (by decide)).1,
   ((C5_connected_output_scan (fun _ => some ⟨0, ConnState.Disconnected, none⟩)
      [4, 6]).2 (by decide)).2.1⟩

/-- C6: the device locator scans identifiers 0 through 255 inclusive in
order and returns the first that opens successfully; a NotFound open error
is skipped with no diagnostic, any other open error produces a diagnostic
and the scan continues; if nothing in the range opens, display fails
fatally with "Failed to open any card, terminating". -/
theorem C6_device_scan (f : Nat → OpenResult) :
    (∀ i, i < 256 → f i = OpenResult.ok → (∀ j, j < i → f j ≠ OpenResult.ok) →
      (find_device f).1 = some i ∧
      (find_device f).2 = (List.range i).filter (fun j => isOtherErr (f j))) ∧
    ((∀ i, i < 256 → f i ≠ OpenResult.ok) →
      (find_device f).1 = none ∧
      (find_device f).2 = (List.range 256).filter (fun j => isOtherErr (f j)) ∧
      ∀ env : Env, env.openResult = f →
        (display env).1 = Outcome.err "Failed to open any card, terminating") := by
  constructor
  · intro i hi hok hbefore
    have hsplit := range_split_at 256 i hi
    rw [find_device, hsplit, List.append_assoc, List.singleton_append,
      find_device_scan_found f _ _ i (fun j hj => hbefore j (List.mem_range.mp hj)) hok]
    exact ⟨rfl, rfl⟩
  · intro hnone
    have h1 := find_device_scan_none f (List.range 256)
      (fun i hi => hnone i (List.mem_range.mp hi))
    refine ⟨by rw [find_device, h1], by rw [find_device, h1], ?_⟩
    intro env henv
    have hd : (find_device env.openResult).1 = none := by rw [henv, find_device, h1]
    simp [display, hd]

theorem C6_device_scan_witness :
    (find_device (fun i => if i = 2 then OpenResult.ok
        else if i = 0 then OpenResult.otherErr else OpenResult.notFound)).1 = some 2 ∧
    (find_device (fun i => if i = 2 then OpenResult.ok
        else if i = 0 then OpenResult.otherErr else OpenResult.notFound)).2 =
      (List.range 2).filter (fun j => isOtherErr
        (if j = 2 then OpenResult.ok
         else if j = 0 then OpenResult.otherErr else OpenResult.notFound)) :=
  (C6_device_scan (fun i => if i = 2 then OpenResult.ok
      else if i = 0 then OpenResult.otherErr else OpenResult.notFound)).1 2
    (by decide) (by decide) (by decide)

/-- C10: a connector whose info fetch fails is silently skipped — the scan
records the fetch and proceeds with the rest of the catalog, its result
being that of the remaining scan; in particular a later Connected connector
is still found, so an individual fetch failure never by itself aborts the
run. -/
theorem C10_connector_fetch_failure_skipped (info : Nat → Option ConnectorInfo)
    (g : Nat) (rest : List Nat) (hfail : info g = none) :
    (findConnector info (g :: rest)).1 = (findConnector info rest).1 ∧
    (findConnector info (g :: rest)).2 =
      Ev.getConnector g false :: (findConnector info rest).2 ∧
    (∀ ci, (findConnector info rest).1 = some ci →
      (findConnector info (g :: rest)).1 = some ci) := by
  refine ⟨?_, ?_, ?_⟩ <;> simp [findConnector, hfail]

theorem C10_connector_fetch_failure_skipped_witness :
    (findConnector (fun h => if h = 1 then some ⟨1, ConnState.Connected, some 9⟩ else none)
      [0, 1]).1 = (findConnector
        (fun h => if h = 1 then some ⟨1, ConnState.Connected, some 9⟩ else none) [1]).1 :=
  (C10_connector_fetch_failure_skipped
    (fun h => if h = 1 then some ⟨1, ConnState.Connected, some 9⟩ else none)
    0 [1] (by decide)).1

/- ### Shape of a successful run -/

/-- A successful run fixes the whole pipeline: every stage succeeded, and
the trace is the acquire, the resource fetch, the connector scan, the
encoder/CRTC/plane lookups, the decode, the allocation, the mapping, the
framebuffer add, the plane commit with full-extent rectangles, the master
release, and the final park, in that order. -/
theorem display_ok_shape (env : Env) (hok : (display env).1 = Outcome.ok) :
    ∃ (d : Nat) (res : Resources) (conn : ConnectorInfo) (encH : Nat)
      (enc : EncoderInfo) (crtcH : Nat) (phs : List Nat) (p : PlaneInfo) (fb : Nat)
      (connEvs planeEvs : List Ev),
      (find_device env.openResult).1 = some d ∧
      env.acquireOk = true ∧
      env.resources = some res ∧
      findConnector env.connectorInfo res.connectors = (some conn, connEvs) ∧
      conn.currentEncoder = some encH ∧
      env.encoderInfo encH = some enc ∧
      enc.crtc = some crtcH ∧
      env.crtcOk crtcH = true ∧
      env.planeHandles = some phs ∧
      get_crtc_plane env.planeInfo res crtcH phs = (Except.ok p, planeEvs) ∧
      ARGB8888 ∈ p.formats ∧
      env.decodeOk = true ∧ env.createBufferOk = true ∧ env.mapOk = true ∧
      env.addFbResult = some fb ∧ env.setPlaneOk = true ∧ env.releaseOk = true ∧
      (display env).2 =
        Ev.acquireMaster :: Ev.getResources ::
          (connEvs ++ Ev.getEncoder encH :: Ev.getCrtc crtcH :: Ev.getPlaneHandles ::
            (planeEvs ++ Ev.decode ::
              Ev.createDumbBuffer env.image.width env.image.height ::
              Ev.mapDumbBuffer :: Ev.addFramebuffer 32 32 ::
              Ev.setPlane p.handle crtcH (some fb) 0
                (0, 0, env.image.width, env.image.height)
                (0, 0, env.image.width * 65536 % 4294967296,
                  env.image.height * 65536 % 4294967296) ::
              Ev.releaseMaster :: Ev.park :: [])) := by
  cases hdev : (find_device env.openResult).1 with
  | none => simp [display, hdev] at hok
  | some d =>
  cases hacq : env.acquireOk with
  | false => simp [display, hdev, hacq] at hok
  | true =>
  simp only [display, hdev, hacq, if_true] at hok
  cases hres : env.resources with
  | none => simp [displayRes, hres] at hok
  | some res =>
  simp only [displayRes, hres] at hok
  rcases hfc : findConnector env.connectorInfo res.connectors with ⟨_ | conn, connEvs⟩
  · simp [displayConn, hfc] at hok
  simp only [displayConn, hfc] at hok
  cases hce : conn.currentEncoder with
  | none => simp [displayEnc, hce] at hok
  | some encH =>
  cases henc : env.encoderInfo encH with
  | none => simp [displayEnc, hce, henc] at hok
  | some enc =>
  simp only [displayEnc, hce, henc] at hok
  cases hcrtc : enc.crtc with
  | none => simp [displayCrtc, hcrtc] at hok
  | some crtcH =>
  cases hcok : env.crtcOk crtcH with
  | false => simp [displayCrtc, hcrtc, hcok] at hok
  | true =>
  simp only [displayCrtc, hcrtc, hcok, if_true] at hok
  cases hph : env.planeHandles with
  | none => simp [displayPlane, hph] at hok
  | some phs =>
  simp only [displayPlane, hph] at hok
  rcases hgcp : get_crtc_plane env.planeInfo res crtcH phs with ⟨rr, planeEvs⟩
  cases rr with
  | error msg => simp [hgcp] at hok
  | ok p =>
  simp only [hgcp] at hok
  by_cases hfmt : ARGB8888 ∈ p.formats
  case neg => simp [displayFormat, hfmt] at hok
  simp only [displayFormat, hfmt, if_true] at hok
  cases hdec : env.decodeOk with
  | false => simp [displayDecode, hdec] at hok
  | true =>
  simp only [displayDecode, hdec, if_true] at hok
  cases hcb : env.createBufferOk with
  | false => simp [displayBuffer, hcb] at hok
  | true =>
  simp only [displayBuffer, hcb, if_true] at hok
  cases hmap : env.mapOk with
  | false => simp [displayMap, hmap] at hok
  | true =>
  simp only [displayMap, hmap, if_true] at hok
  cases hfb : env.addFbResult with
  | none => simp [displayFb, hfb] at hok
  | some fb =>
  simp only [displayFb, hfb] at hok
  cases hsp : env.setPlaneOk with
  | false => simp [displayCommit, hsp] at hok
  | true =>
  cases hrel : env.releaseOk with
  | false => simp [displayCommit, hsp, hrel] at hok
  | true =>
  refine ⟨d, res, conn, encH, enc, crtcH, phs, p, fb, connEvs, planeEvs,
    rfl, rfl, rfl, hfc, hce, henc, hcrtc, hcok, rfl, hgcp, hfmt, rfl, rfl,
    rfl, rfl, rfl, rfl, ?_⟩
  simp [display, hdev, hacq, displayRes, hres, displayConn, hfc, displayEnc, hce,
    henc, displayCrtc, hcrtc, hcok, displayPlane, hph, hgcp, displayFormat, hfmt,
    displayDecode, hdec, displayBuffer, hcb, displayMap, hmap, displayFb, hfb,
    displayCommit, hsp, hrel]

/- ### The master-lock discipline and the plane commit -/

theorem count_eq_one_cons {α : Type} [DecidableEq α] (a : α) (l : List α)
    (h : a ∉ l) : ((a :: l).count a) = 1 := by
  simp [List.count_cons, List.count_eq_zero.mpr h]

/-- C7: in every successful run the master lock is acquired exactly once
and released exactly once; the acquire is the very first call, strictly
before the (single) resource-handles fetch; and the release comes strictly
after the plane-commit call and before the idle park. -/
theorem C7_master_lock_discipline (env : Env) (hok : (display env).1 = Outcome.ok) :
    (display env).2.count Ev.acquireMaster = 1 ∧
    (display env).2.count Ev.releaseMaster = 1 ∧
    ∃ (mid : List Ev) (pl c : Nat) (fb : Option Nat) (fl : Nat)
      (dr sr : Nat × Nat × Nat × Nat),
      (display env).2 =
        Ev.acquireMaster :: Ev.getResources ::
          (mid ++ [Ev.setPlane pl c fb fl dr sr, Ev.releaseMaster, Ev.park]) ∧
      Ev.acquireMaster ∉ mid ∧ Ev.releaseMaster ∉ mid ∧ Ev.getResources ∉ mid ∧
      Ev.park ∉ mid ∧
      (∀ pl' c' fb' fl' dr' sr', Ev.setPlane pl' c' fb' fl' dr' sr' ∉ mid) := by
  obtain ⟨d, res, conn, encH, enc, crtcH, phs, p, fb, connEvs, planeEvs,
    hdev, hacq, hres, hfc, hce, henc, hcrtc, hcok, hph, hgcp, hfmt, hdec, hcb,
    hmap, hfb, hsp, hrel, htr⟩ := display_ok_shape env hok
  have hconnEvs : ∀ e ∈ connEvs, ∃ g, e = Ev.getConnector g false := fun e he =>
    findConnector_events env.connectorInfo res.connectors e (by rw [hfc]; exact he)
  have hplaneEvs : ∀ e ∈ planeEvs, ∃ g, e = Ev.getPlane g := fun e he =>
    get_crtc_plane_events env.planeInfo res crtcH phs e (by rw [hgcp]; exact he)
  have hnca : Ev.acquireMaster ∉ connEvs := by
    intro hm; obtain ⟨g, heq⟩ := hconnEvs _ hm; exact Ev.noConfusion heq
  have hnpa : Ev.acquireMaster ∉ planeEvs := by
    intro hm; obtain ⟨g, heq⟩ := hplaneEvs _ hm; exact Ev.noConfusion heq
  have hnrc : Ev.releaseMaster ∉ connEvs := by
    intro hm; obtain ⟨g, heq⟩ := hconnEvs _ hm; exact Ev.noConfusion heq
  have hnrp : Ev.releaseMaster ∉ planeEvs := by
    intro hm; obtain ⟨g, heq⟩ := hplaneEvs _ hm; exact Ev.noConfusion heq
  have hngc : Ev.getResources ∉ connEvs := by
    intro hm; obtain ⟨g, heq⟩ := hconnEvs _ hm; exact Ev.noConfusion heq
  have hngp : Ev.getResources ∉ planeEvs := by
    intro hm; obtain ⟨g, heq⟩ := hplaneEvs _ hm; exact Ev.noConfusion heq
  have hnkc : Ev.park ∉ connEvs := by
    intro hm; obtain ⟨g, heq⟩ := hconnEvs _ hm; exact Ev.noConfusion heq
  have hnkp : Ev.park ∉ planeEvs := by
    intro hm; obtain ⟨g, heq⟩ := hplaneEvs _ hm; exact Ev.noConfusion heq
  have hnsc : ∀ pl' c' fb' fl' dr' sr',
      Ev.setPlane pl' c' fb' fl' dr' sr' ∉ connEvs := by
    intro pl' c' fb' fl' dr' sr' hm
    obtain ⟨g, heq⟩ := hconnEvs _ hm; exact Ev.noConfusion heq
  have hnsp : ∀ pl' c' fb' fl' dr' sr',
      Ev.setPlane pl' c' fb' fl' dr' sr' ∉ planeEvs := by
    intro pl' c' fb' fl' dr' sr' hm
    obtain ⟨g, heq⟩ := hplaneEvs _ hm; exact Ev.noConfusion heq
  refine ⟨?_, ?_, ?_⟩
  · rw [htr]
    apply count_eq_one_cons
    simp [hnca, hnpa]
  · rw [htr]
    simp [List.count_cons, List.count_append, List.count_eq_zero.mpr hnrc,
      List.count_eq_zero.mpr hnrp]
  · refine ⟨connEvs ++ Ev.getEncoder encH :: Ev.getCrtc crtcH :: Ev.getPlaneHandles ::
      (planeEvs ++ [Ev.decode, Ev.createDumbBuffer env.image.width env.image.height,
        Ev.mapDumbBuffer, Ev.addFramebuffer 32 32]),
      p.handle, crtcH, some fb, 0,
      (0, 0, env.image.width, env.image.height),
      (0, 0, env.image.width * 65536 % 4294967296,
        env.image.height * 65536 % 4294967296), ?_, ?_, ?_, ?_, ?_, ?_⟩
    · rw [htr]; simp
    · simp [hnca, hnpa]
    · simp [hnrc, hnrp]
    · simp [hngc, hngp]
    · simp [hnkc, hnkp]
    · intro pl' c' fb' fl' dr' sr'
      simp [hnsc pl' c' fb' fl' dr' sr', hnsp pl' c' fb' fl' dr' sr']

theorem C7_master_lock_discipline_witness :
    (display sampleEnv).2.count Ev.acquireMaster = 1 ∧
    (display sampleEnv).2.count Ev.releaseMaster = 1 :=
  ⟨(C7_master_lock_discipline sampleEnv (by decide)).1,
   (C7_master_lock_discipline sampleEnv (by decide)).2.1⟩

theorem shift16_low_bits (n : Nat) : n * 65536 % 4294967296 % 65536 = 0 := by
  have h1 : (4294967296 : Nat) = 65536 * 65536 := by norm_num
  rw [h1, Nat.mul_mod_mul_right, Nat.mul_mod_left]

theorem shift16_recover (n : Nat) (h : n < 65536) :
    n * 65536 % 4294967296 / 65536 = n := by
  have hlt : n * 65536 < 4294967296 := by omega
  rw [Nat.mod_eq_of_lt hlt, Nat.mul_div_cancel]
  omega

/-- C8: every successful run commits the framebuffer onto the selected
plane and CRTC via one set_plane call with destination rectangle
(0, 0, width, height) in integer screen pixels at the origin and source
rectangle (0, 0, width << 16, height << 16) in 16.16 fixed point; the
source coordinates have zero fractional part, and (whenever the dimensions
fit in 16 bits, as any real mode does) the source covers the same pixel
extent as the destination. -/
theorem C8_plane_commit_rects (env : Env) (hok : (display env).1 = Outcome.ok) :
    ∃ (res : Resources) (crtcH : Nat) (phs : List Nat) (p : PlaneInfo) (fb : Nat),
      env.resources = some res ∧
      env.planeHandles = some phs ∧
      (get_crtc_plane env.planeInfo res crtcH phs).1 = Except.ok p ∧
      Ev.setPlane p.handle crtcH (some fb) 0
        (0, 0, env.image.width, env.image.height)
        (0, 0, env.image.width * 65536 % 4294967296,
          env.image.height * 65536 % 4294967296) ∈ (display env).2 ∧
      env.image.width * 65536 % 4294967296 % 65536 = 0 ∧
      env.image.height * 65536 % 4294967296 % 65536 = 0 ∧
      (env.image.width < 65536 →
        env.image.width * 65536 % 4294967296 / 65536 = env.image.width) ∧
      (env.image.height < 65536 →
        env.image.height * 65536 % 4294967296 / 65536 = env.image.height) := by
  obtain ⟨d, res, conn, encH, enc, crtcH, phs, p, fb, connEvs, planeEvs,
    hdev, hacq, hres, hfc, hce, henc, hcrtc, hcok, hph, hgcp, hfmt, hdec, hcb,
    hmap, hfb, hsp, hrel, htr⟩ := display_ok_shape env hok
  refine ⟨res, crtcH, phs, p, fb, hres, hph, by rw [hgcp], ?_,
    shift16_low_bits env.image.width, shift16_low_bits env.image.height,
    fun hw => shift16_recover env.image.width hw,
    fun hh => shift16_recover env.image.height hh⟩
  rw [htr]
  simp

theorem C8_plane_commit_rects_witness :
    ∃ (res : Resources) (crtcH : Nat) (phs : List Nat) (p : PlaneInfo) (fb : Nat),
      sampleEnv.resources = some res ∧
      sampleEnv.planeHandles = some phs ∧
      (get_crtc_plane sampleEnv.planeInfo res crtcH phs).1 = Except.ok p ∧
      Ev.setPlane p.handle crtcH (some fb) 0
        (0, 0, sampleEnv.image.width, sampleEnv.image.height)
        (0, 0, sampleEnv.image.width * 65536 % 4294967296,
          sampleEnv.image.height * 65536 % 4294967296) ∈ (display sampleEnv).2 ∧
      sampleEnv.image.width * 65536 % 4294967296 % 65536 = 0 ∧
      sampleEnv.image.height * 65536 % 4294967296 % 65536 = 0 ∧
      (sampleEnv.image.width < 65536 →
        sampleEnv.image.width * 65536 % 4294967296 / 65536 = sampleEnv.image.width) ∧
      (sampleEnv.image.height < 65536 →
        sampleEnv.image.height * 65536 % 4294967296 / 65536 = sampleEnv.image.height) :=
  C8_plane_commit_rects sampleEnv (by decide)

/- ### The format gate and the allocation dimensions -/

theorem createDumbBuffer_notin_displayMap (env : Env) (p : PlaneInfo)
    (crtcH w h : Nat) : Ev.createDumbBuffer w h ∉ (displayMap env p crtcH).2 := by
  cases hmap : env.mapOk <;> cases hfb : env.addFbResult <;>
    cases hsp : env.setPlaneOk <;> cases hrel : env.releaseOk <;>
    simp [displayMap, displayFb, displayCommit, hmap, hfb, hsp, hrel]

/-- Inversion: a dumb-buffer allocation call in the trace pins its
dimensions to the decoded image's and means the run passed the plane
selection and the ARGB8888 format check. -/
theorem display_create_inv (env : Env) (w h : Nat)
    (hmem : Ev.createDumbBuffer w h ∈ (display env).2) :
    w = env.image.width ∧ h = env.image.height ∧
    ∃ (res : Resources) (crtcH : Nat) (phs : List Nat) (p : PlaneInfo),
      env.resources = some res ∧ env.planeHandles = some phs ∧
      (get_crtc_plane env.planeInfo res crtcH phs).1 = Except.ok p ∧
      ARGB8888 ∈ p.formats := by
  cases hdev : (find_device env.openResult).1 with
  | none => simp [display, hdev] at hmem
  | some d =>
  cases hacq : env.acquireOk with
  | false => simp [display, hdev, hacq] at hmem
  | true =>
  simp only [display, hdev, hacq, if_true] at hmem
  cases hres : env.resources with
  | none => simp [displayRes, hres] at hmem
  | some res =>
  simp only [displayRes, hres] at hmem
  rcases hfc : findConnector env.connectorInfo res.connectors with ⟨fcr, connEvs⟩
  have hcne : Ev.createDumbBuffer w h ∉ connEvs := by
    intro hm
    obtain ⟨g, heq⟩ := findConnector_events env.connectorInfo res.connectors _
      (by rw [hfc]; exact hm)
    exact Ev.noConfusion heq
  cases fcr with
  | none => simp [displayConn, hfc, hcne] at hmem
  | some conn =>
  simp only [displayConn, hfc] at hmem
  cases hce : conn.currentEncoder with
  | none => simp [displayEnc, hce, hcne] at hmem
  | some encH =>
  cases henc : env.encoderInfo encH with
  | none => simp [displayEnc, hce, henc, hcne] at hmem
  | some enc =>
  simp only [displayEnc, hce, henc] at hmem
  cases hcrtc : enc.crtc with
  | none => simp [displayCrtc, hcrtc, hcne] at hmem
  | some crtcH =>
  cases hcok : env.crtcOk crtcH with
  | false => simp [displayCrtc, hcrtc, hcok, hcne] at hmem
  | true =>
  simp only [displayCrtc, hcrtc, hcok, if_true] at hmem
  cases hph : env.planeHandles with
  | none => simp [displayPlane, hph, hcne] at hmem
  | some phs =>
  simp only [displayPlane, hph] at hmem
  rcases hgcp : get_crtc_plane env.planeInfo res crtcH phs with ⟨rr, planeEvs⟩
  have hpne : Ev.createDumbBuffer w h ∉ planeEvs := by
    intro hm
    obtain ⟨g, heq⟩ := get_crtc_plane_events env.planeInfo res crtcH phs _
      (by rw [hgcp]; exact hm)
    exact Ev.noConfusion heq
  cases rr with
  | error msg => simp [hgcp, hcne, hpne] at hmem
  | ok p =>
  simp only [hgcp] at hmem
  by_cases hfmt : ARGB8888 ∈ p.formats
  case neg => simp [displayFormat, hfmt, hcne, hpne] at hmem
  simp only [displayFormat, hfmt, if_true] at hmem
  cases hdec : env.decodeOk with
  | false => simp [displayDecode, hdec, hcne, hpne] at hmem
  | true =>
  simp only [displayDecode, hdec, if_true] at hmem
  cases hcb : env.createBufferOk with
  | false =>
    simp [displayBuffer, hcb, hcne, hpne] at hmem
    exact ⟨hmem.1, hmem.2, res, crtcH, phs, p, rfl, rfl, by rw [hgcp], hfmt⟩
  | true =>
    simp [displayBuffer, hcb, hcne, hpne, createDumbBuffer_notin_displayMap] at hmem
    exact ⟨hmem.1, hmem.2, res, crtcH, phs, p, rfl, rfl, by rw [hgcp], hfmt⟩

/-- C4: when the selected plane's format list lacks ARGB8888, the run
aborts fatally with the unsupported-format error and no dumb-buffer
allocation call ever appears in the trace; conversely, an allocation call
in the trace means the selected plane's format check had passed. -/
theorem C4_format_check_gates_allocation (env : Env) :
    (∀ (d : Nat) (res : Resources) (conn : ConnectorInfo) (connEvs : List Ev)
        (encH : Nat) (enc : EncoderInfo) (crtcH : Nat) (phs : List Nat)
        (p : PlaneInfo) (planeEvs : List Ev),
      (find_device env.openResult).1 = some d → env.acquireOk = true →
      env.resources = some res →
      findConnector env.connectorInfo res.connectors = (some conn, connEvs) →
      conn.currentEncoder = some encH → env.encoderInfo encH = some enc →
      enc.crtc = some crtcH → env.crtcOk crtcH = true →
      env.planeHandles = some phs →
      get_crtc_plane env.planeInfo res crtcH phs = (Except.ok p, planeEvs) →
      ARGB8888 ∉ p.formats →
      (display env).1 = Outcome.err "Failed to find suitable format in plane." ∧
      ∀ w h, Ev.createDumbBuffer w h ∉ (display env).2) ∧
    (∀ w h, Ev.createDumbBuffer w h ∈ (display env).2 →
      ∃ (res : Resources) (crtcH : Nat) (phs : List Nat) (p : PlaneInfo),
        env.resources = some res ∧ env.planeHandles = some phs ∧
        (get_crtc_plane env.planeInfo res crtcH phs).1 = Except.ok p ∧
        ARGB8888 ∈ p.formats) := by
  constructor
  · intro d res conn connEvs encH enc crtcH phs p planeEvs hdev hacq hres hfc hce
      henc hcrtc hcok hph hgcp hfmt
    have hcne : ∀ w h, Ev.createDumbBuffer w h ∉ connEvs := by
      intro w h hm
      obtain ⟨g, heq⟩ := findConnector_events env.connectorInfo res.connectors _
        (by rw [hfc]; exact hm)
      exact Ev.noConfusion heq
    have hpne : ∀ w h, Ev.createDumbBuffer w h ∉ planeEvs := by
      intro w h hm
      obtain ⟨g, heq⟩ := get_crtc_plane_events env.planeInfo res crtcH phs _
        (by rw [hgcp]; exact hm)
      exact Ev.noConfusion heq
    constructor
    · simp [display, hdev, hacq, displayRes, hres, displayConn, hfc, displayEnc,
        hce, henc, displayCrtc, hcrtc, hcok, displayPlane, hph, hgcp,
        displayFormat, hfmt]
    · intro w h hmem
      simp [display, hdev, hacq, displayRes, hres, displayConn, hfc, displayEnc,
        hce, henc, displayCrtc, hcrtc, hcok, displayPlane, hph, hgcp,
        displayFormat, hfmt, hcne w h, hpne w h] at hmem
  · intro w h hmem
    exact (display_create_inv env w h hmem).2.2

theorem C4_format_check_gates_allocation_witness :
    (display noFmtEnv).1 = Outcome.err "Failed to find suitable format in plane." ∧
    ∀ w h, Ev.createDumbBuffer w h ∉ (display noFmtEnv).2 :=
  (C4_format_check_gates_allocation noFmtEnv).1 3 ⟨[7, 8], [5]⟩
    ⟨8, ConnState.Connected, some 9⟩ [Ev.getConnector 7 false, Ev.getConnector 8 false]
    9 ⟨some 5⟩ 5 [12] ⟨12, none, 1, [0]⟩ [Ev.getPlane 12]
    (by rfl) (by rfl) (by rfl) (by rfl) (by rfl) (by rfl) (by rfl) (by rfl)
    (by rfl) (by rfl) (by decide)

/- ### The buffer dimensions make the clipping branches unreachable -/

theorem rowWrites_length_all (img : Image) (bw pitch y : Nat) :
    ∀ xs : List Nat, (∀ x ∈ xs, x < bw) →
      (xs.flatMap (fun x =>
        if x < bw then pixWrites (img.pix x y) (x * 4 + y * pitch) else [])).length =
        4 * xs.length := by
  intro xs
  induction xs with
  | nil => intro _; rfl
  | cons x xs ih =>
    intro hall
    have hx : x < bw := hall x (List.mem_cons_self _ _)
    have ih' := ih (fun q hq => hall q (List.mem_cons_of_mem _ hq))
    rw [List.flatMap_cons, if_pos hx, List.length_append, ih']
    simp only [pixWrites, List.length_cons, List.length_nil]
    omega

theorem copyWrites_full_length (img : Image) (pitch : Nat) :
    (copyWrites img img.width img.height pitch
      (pixelSeq img.width img.height)).length = img.height * (4 * img.width) := by
  rw [copyWrites_pixelSeq, Nat.min_self]
  suffices H : ∀ n, ((List.range n).flatMap
      (rowWrites img img.width pitch img.width)).length = n * (4 * img.width) by
    exact H img.height
  intro n
  induction n with
  | zero => simp
  | succ n ih =>
    rw [List.range_succ, List.flatMap_append]
    simp only [List.flatMap_cons, List.flatMap_nil, List.append_nil,
      List.length_append, ih]
    rw [rowWrites, rowWrites_length_all img img.width pitch n (List.range img.width)
      (fun x hx => List.mem_range.mp hx), List.length_range]
    ring

/-- C9: every dumb-buffer allocation in any run uses exactly the decoded
image's width and height; with those buffer dimensions the clipping
branches of the pixel-copy loop are unreachable — the write trace has the
full 4 bytes for all width*height pixels — and every pixel of the image is
written at its offset. -/
theorem C9_buffer_dims_and_full_copy :
    (∀ (env : Env) (w h : Nat), Ev.createDumbBuffer w h ∈ (display env).2 →
      w = env.image.width ∧ h = env.image.height) ∧
    (∀ (img : Image) (pitch : Nat),
      (copyWrites img img.width img.height pitch
        (pixelSeq img.width img.height)).length = img.height * (4 * img.width)) ∧
    (∀ (img : Image) (pitch : Nat) (buf : List Nat) (x y : Nat),
      4 * img.width ≤ pitch → img.height * pitch ≤ buf.length →
      x < img.width → y < img.height →
      ((copyPixels img img.width img.height pitch buf)[x * 4 + y * pitch]? =
          some (img.pix x y).b ∧
       (copyPixels img img.width img.height pitch buf)[x * 4 + y * pitch + 1]? =
          some (img.pix x y).g ∧
       (copyPixels img img.width img.height pitch buf)[x * 4 + y * pitch + 2]? =
          some (img.pix x y).r ∧
       (copyPixels img img.width img.height pitch buf)[x * 4 + y * pitch + 3]? =
          some (img.pix x y).a)) :=
  ⟨fun env w h hmem =>
    ⟨(display_create_inv env w h hmem).1, (display_create_inv env w h hmem).2.1⟩,
   fun img pitch => copyWrites_full_length img pitch,
   fun img pitch buf x y hp hl hx hy =>
    copyPixels_pixel_bytes img img.width img.height pitch buf x y hp hl hx hy hx hy⟩

theorem C9_buffer_dims_and_full_copy_witness :
    2 = sampleEnv.image.width ∧ 2 = sampleEnv.image.height :=
  C9_buffer_dims_and_full_copy.1 sampleEnv 2 2 (by decide)
